import Mathlib

/-!
# NetShare transfer engine — verification of the specification against the code

Shallow embedding of `src/network/transfer_manager.py` (class `TransferManager`)
together with the configuration state it reads from `src/app.py`.

Conventions:
* Python `bytes` values are modelled as `List Nat` (one `Nat` per byte).
* Machine integers do not overflow in the relevant code paths, so `Nat` is used
  directly; `int.to_bytes(4, 'big')` / `int.from_bytes(_, 'big')` are modelled
  with explicit base-256 arithmetic.
* Blocking socket loops are modelled as fuel-indexed structural recursions; the
  fuel passed at every call site is proved (or hypothesised) large enough that
  the fuel never runs out, so the function computes exactly what the Python
  `while` loop computes.
* `json.dumps`/`json.loads` are external library calls.  They are modelled by a
  concrete injective frame codec with the two properties the code relies on:
  decoding inverts encoding, and decoding fails on data that is not a JSON
  object (in particular on data that does not start with the byte `123`, `'{'`,
  which every `json.dumps` of a dict produces).
-/

namespace NetShare

/-- Bytes of an ASCII string, one `Nat` per character. -/
def strBytes (s : String) : List Nat := s.toList.map Char.toNat

/-- Bytes of `b"TRANSFER_COMPLETE"` (transfer_manager.py line 183 / 421). -/
def markerBytes : List Nat :=
  [84, 82, 65, 78, 83, 70, 69, 82, 95, 67, 79, 77, 80, 76, 69, 84, 69]

/-- Bytes of `b"READY"` (transfer_manager.py lines 149, 397). -/
def readyBytes : List Nat := [82, 69, 65, 68, 89]

/-- Bytes of `b"REJECTED"` (transfer_manager.py line 393). -/
def rejectedBytes : List Nat := [82, 69, 74, 69, 67, 84, 69, 68]

/-- The body of the type field `'small_file'` as bytes. -/
def smallFileTypeBytes : List Nat := strBytes "small_file"

theorem markerBytes_eq_strBytes : markerBytes = strBytes "TRANSFER_COMPLETE" := by
  decide

/-- Model of `n.to_bytes(4, 'big')` (transfer_manager.py lines 144, 218, 291). -/
def natToBytes4 (n : Nat) : List Nat :=
  [n / 16777216 % 256, n / 65536 % 256, n / 256 % 256, n % 256]

/-- Model of `int.from_bytes(bs, 'big')` (transfer_manager.py lines 360, 548, 629). -/
def bytesToNat (bs : List Nat) : Nat := bs.foldl (fun a b => a * 256 + b) 0

theorem bytesToNat_natToBytes4 {n : Nat} (h : n < 4294967296) :
    bytesToNat (natToBytes4 n) = n := by
  simp only [natToBytes4, bytesToNat, List.foldl]
  omega

theorem natToBytes4_length (n : Nat) : (natToBytes4 n).length = 4 := rfl

/-- Model of `self.port_pool = list(range(12346, 12366))` (transfer_manager.py line 23). -/
def port_pool : List Nat := List.range' 12346 20

theorem port_pool_length : port_pool.length = 20 := by decide

theorem port_pool_explicit :
    port_pool = [12346, 12347, 12348, 12349, 12350, 12351, 12352, 12353, 12354,
      12355, 12356, 12357, 12358, 12359, 12360, 12361, 12362, 12363, 12364, 12365] := by
  decide

/-! ## Files and the small-file metadata frame codec -/

/-- One entry of the sender's selected-file list: the dicts
`{'name': .., 'size': .., 'path': ..}` consumed by `send_files`, together with
the byte content of the file on disk. -/
structure FileInfo where
  name : List Nat
  path : List Nat
  size : Nat
  content : List Nat
deriving DecidableEq, Repr

/-- The small-file metadata frame `{'name', 'size', 'path', 'type'}` built in
`_send_small_files` (transfer_manager.py lines 210–215). -/
structure SmallMeta where
  name : List Nat
  size : Nat
  path : List Nat
  mtype : List Nat
deriving DecidableEq, Repr

/-- Modelled from the spec: frames are JSON objects (§4.1, §6).  The codec is a
concrete injective encoding with the properties the code relies on: it starts
with byte `123` (`'{'`, as every `json.dumps` of a dict does) and decoding
inverts encoding.  Strings are length-prefixed, the size is a 4-byte
big-endian field. -/
def encodeMeta (m : SmallMeta) : List Nat :=
  123 :: m.mtype.length :: (m.mtype ++ m.name.length :: (m.name ++
    natToBytes4 m.size ++ m.path.length :: (m.path ++ [125])))

/-- Read a length-prefixed byte list. -/
def readLenList : List Nat → Option (List Nat × List Nat)
  | [] => none
  | n :: rest => if n ≤ rest.length then some (rest.take n, rest.drop n) else none

/-- Read a 4-byte big-endian number. -/
def read4 : List Nat → Option (Nat × List Nat)
  | a :: b :: c :: d :: rest => some (bytesToNat [a, b, c, d], rest)
  | _ => none

/-- Modelled from the spec: `json.loads` of a small-file metadata frame.
Returns `none` on any input that is not an exact `encodeMeta` image; in
particular on any input that does not start with byte `123` (`'{'`). -/
def decodeMeta (bs : List Nat) : Option SmallMeta :=
  match bs with
  | 123 :: rest =>
    match readLenList rest with
    | none => none
    | some (ty, r1) =>
      match readLenList r1 with
      | none => none
      | some (nm, r2) =>
        match read4 r2 with
        | none => none
        | some (sz, r3) =>
          match readLenList r3 with
          | none => none
          | some (pth, r4) =>
            match r4 with
            | [125] => some ⟨nm, sz, pth, ty⟩
            | _ => none
  | _ => none

theorem readLenList_append (l r : List Nat) :
    readLenList (l.length :: (l ++ r)) = some (l, r) := by
  simp [readLenList, List.take_left, List.drop_left]

theorem read4_cons (a b c d : Nat) (r : List Nat) :
    read4 (a :: b :: c :: d :: r) = some (bytesToNat [a, b, c, d], r) := rfl

theorem decodeMeta_encodeMeta (m : SmallMeta) (h : m.size < 4294967296) :
    decodeMeta (encodeMeta m) = some m := by
  have hsz : bytesToNat [m.size / 16777216 % 256, m.size / 65536 % 256,
      m.size / 256 % 256, m.size % 256] = m.size := bytesToNat_natToBytes4 h
  simp only [encodeMeta, decodeMeta, natToBytes4, List.cons_append, List.nil_append,
    List.append_assoc, readLenList_append, read4_cons, hsz]

theorem encodeMeta_length_pos (m : SmallMeta) : 0 < (encodeMeta m).length := by
  simp [encodeMeta]

theorem decodeMeta_nil : decodeMeta [] = none := rfl

/-! ## Buffered send/receive loops

Each Python `while` loop over a socket is modelled as a structural recursion
on a fuel argument; every call site passes fuel that provably suffices, so the
model computes exactly what the loop computes. -/

/-- The small-file send loop of `_send_small_files` (lines 222–229):
`sent = 0; while sent < size: chunk = f.read(bufSize); if not chunk: break;
sock.send(chunk); sent += len(chunk)`.  Returns the list of buffers sent.
`sizeLeft` is `size - sent` and `data` the unread tail of the file. -/
def sendSmallBuffers (bufSize : Nat) : Nat → Nat → List Nat → List (List Nat)
  | 0, _, _ => []
  | _ + 1, 0, _ => []
  | fuel + 1, sizeLeft + 1, data =>
    let c := data.take bufSize
    if c = [] then []
    else c :: sendSmallBuffers bufSize fuel (sizeLeft + 1 - c.length) (data.drop c.length)

/-- The chunk send loop of `_send_file_chunk` (lines 295–306):
`remaining = end - start; while remaining > 0: read_size = min(bufSize,
remaining); chunk = f.read(read_size); if not chunk: break; sock.send(chunk);
remaining -= len(chunk)`.  `data` is the file content from the seek position. -/
def sendChunkBuffers (bufSize : Nat) : Nat → Nat → List Nat → List (List Nat)
  | 0, _, _ => []
  | _ + 1, 0, _ => []
  | fuel + 1, remaining + 1, data =>
    let c := data.take (min bufSize (remaining + 1))
    if c = [] then []
    else c :: sendChunkBuffers bufSize fuel (remaining + 1 - c.length) (data.drop c.length)

/-- The receive loops of `_receive_file_chunk` (lines 573–581) and
`_receive_small_files` (lines 648–661):
`received = 0; while received < size: remaining = size - received;
data = conn.recv(min(bufSize, remaining)); if not data: break; f.write(data);
received += len(data)`.  Returns the bytes written and the unread stream. -/
def recvFileData (bufSize : Nat) : Nat → Nat → List Nat → List Nat × List Nat
  | 0, _, stream => ([], stream)
  | _ + 1, 0, stream => ([], stream)
  | fuel + 1, remaining + 1, stream =>
    let data := stream.take (min bufSize (remaining + 1))
    if data = [] then ([], stream)
    else
      let r := recvFileData bufSize fuel (remaining + 1 - data.length) (stream.drop data.length)
      (data ++ r.1, r.2)

theorem sendSmallBuffers_flatten (bufSize : Nat) (hb : 0 < bufSize) :
    ∀ (fuel : Nat) (data : List Nat), data.length ≤ fuel →
      (sendSmallBuffers bufSize fuel data.length data).flatten = data := by
  intro fuel
  induction fuel with
  | zero =>
    intro data hd
    have : data = [] := List.eq_nil_of_length_eq_zero (Nat.le_zero.mp hd)
    subst this
    rfl
  | succ n ih =>
    intro data hd
    match hdata : data with
    | [] => rfl
    | x :: xs =>
      simp only [List.length_cons, sendSmallBuffers]
      have htk : (x :: xs).take bufSize ≠ [] := by
        cases bufSize with
        | zero => omega
        | succ b => simp [List.take_succ_cons]
      simp only [htk, if_false]
      have hlen : ((x :: xs).take bufSize).length = min bufSize (xs.length + 1) := by
        simp [List.length_take]
      have hrec : xs.length + 1 - ((x :: xs).take bufSize).length =
          ((x :: xs).drop ((x :: xs).take bufSize).length).length := by
        simp [List.length_drop, hlen]
      rw [show (sendSmallBuffers bufSize n (xs.length + 1 - ((x :: xs).take bufSize).length)
            ((x :: xs).drop ((x :: xs).take bufSize).length)) =
          (sendSmallBuffers bufSize n ((x :: xs).drop ((x :: xs).take bufSize).length).length
            ((x :: xs).drop ((x :: xs).take bufSize).length)) by rw [hrec]]
      rw [List.flatten_cons, ih ((x :: xs).drop ((x :: xs).take bufSize).length) (by
        simp only [List.length_drop]
        omega)]
      rw [hlen]
      rcases Nat.le_total bufSize (xs.length + 1) with hle | hle
      · rw [Nat.min_eq_left hle]
        exact List.take_append_drop _ _
      · rw [Nat.min_eq_right hle]
        rw [List.take_of_length_le (by simpa using hle)]
        rw [List.drop_of_length_le (by simp)]
        simp

theorem sendChunkBuffers_flatten (bufSize : Nat) (hb : 0 < bufSize) :
    ∀ (fuel remaining : Nat) (data : List Nat), remaining ≤ fuel →
      remaining ≤ data.length →
      (sendChunkBuffers bufSize fuel remaining data).flatten = data.take remaining := by
  intro fuel
  induction fuel with
  | zero =>
    intro remaining data hf _
    have : remaining = 0 := Nat.le_zero.mp hf
    subst this
    rfl
  | succ n ih =>
    intro remaining data hf hd
    match remaining with
    | 0 => rfl
    | r + 1 =>
      match data with
      | [] => simp at hd
      | x :: xs =>
        simp only [List.length_cons] at hd
        simp only [sendChunkBuffers]
        have htk : (x :: xs).take (min bufSize (r + 1)) ≠ [] := by
          have : 0 < min bufSize (r + 1) := by omega
          match hmin : min bufSize (r + 1) with
          | 0 => omega
          | k + 1 => simp [List.take_succ_cons]
        simp only [htk, if_false]
        rw [List.flatten_cons]
        have hlen : ((x :: xs).take (min bufSize (r + 1))).length = min bufSize (r + 1) := by
          simp only [List.length_take, List.length_cons]
          omega
        rw [ih (r + 1 - ((x :: xs).take (min bufSize (r + 1))).length)
          ((x :: xs).drop ((x :: xs).take (min bufSize (r + 1))).length)
          (by rw [hlen]; omega)
          (by simp only [List.length_drop, List.length_cons]; omega)]
        rw [hlen]
        rw [← List.take_add]
        congr 1
        omega

theorem recvFileData_eq (bufSize : Nat) (hb : 0 < bufSize) :
    ∀ (fuel remaining : Nat) (stream : List Nat), remaining ≤ fuel →
      remaining ≤ stream.length →
      recvFileData bufSize fuel remaining stream = (stream.take remaining, stream.drop remaining) := by
  intro fuel
  induction fuel with
  | zero =>
    intro remaining stream hf _
    have : remaining = 0 := Nat.le_zero.mp hf
    subst this
    rfl
  | succ n ih =>
    intro remaining stream hf hd
    match remaining with
    | 0 => rfl
    | r + 1 =>
      match stream with
      | [] => simp at hd
      | x :: xs =>
        simp only [List.length_cons] at hd
        simp only [recvFileData]
        have htk : (x :: xs).take (min bufSize (r + 1)) ≠ [] := by
          have : 0 < min bufSize (r + 1) := by omega
          match hmin : min bufSize (r + 1) with
          | 0 => omega
          | k + 1 => simp [List.take_succ_cons]
        simp only [htk, if_false]
        have hlen : ((x :: xs).take (min bufSize (r + 1))).length = min bufSize (r + 1) := by
          simp only [List.length_take, List.length_cons]
          omega
        rw [ih (r + 1 - ((x :: xs).take (min bufSize (r + 1))).length)
          ((x :: xs).drop ((x :: xs).take (min bufSize (r + 1))).length)
          (by rw [hlen]; omega)
          (by simp only [List.length_drop, List.length_cons]; omega)]
        rw [hlen]
        have hdd : ((x :: xs).drop (min bufSize (r + 1))).drop
            (r + 1 - min bufSize (r + 1)) = (x :: xs).drop (r + 1) := by
          rw [List.drop_drop]
          congr 1
          omega
        have htt : (x :: xs).take (min bufSize (r + 1)) ++
            ((x :: xs).drop (min bufSize (r + 1))).take (r + 1 - min bufSize (r + 1)) =
            (x :: xs).take (r + 1) := by
          rw [← List.take_add]
          congr 1
          omega
        rw [Prod.mk.injEq]
        constructor
        · exact htt
        · exact hdd

/-! ## Chunked large-file sending: `_create_chunk_threads` / `_send_file_chunk` -/

/-- Constant `min_chunk_size = 100 * 1024 * 1024` (transfer_manager.py line 246). -/
def min_chunk_size : Nat := 100 * 1024 * 1024

/-- The thread count computed in `_create_chunk_threads` (lines 247–248):
`max_threads = min(self.app.max_threads, 4);
num_threads = min(max_threads, max(1, file_size // min_chunk_size))`. -/
def numThreads (appMaxThreads fileSize : Nat) : Nat :=
  min (min appMaxThreads 4) (max 1 (fileSize / min_chunk_size))

/-- One chunk-sending thread's parameters (lines 253–268): byte range
`[startByte, endByte)`, target pool port, and chunk index. -/
structure ChunkSpec where
  port : Nat
  startByte : Nat
  endByte : Nat
  chunkId : Nat
deriving DecidableEq, Repr

/-- Model of `_create_chunk_threads` (lines 243–270): one `ChunkSpec` per thread.
`start_byte = i * chunk_size_per_thread`; the last range ends at `file_size`,
the others at `start_byte + chunk_size_per_thread`;
`port = self.port_pool[i % len(self.port_pool)]`. -/
def create_chunk_threads (appMaxThreads fileSize : Nat) : List ChunkSpec :=
  let num_threads := numThreads appMaxThreads fileSize
  let chunk_size_per_thread := fileSize / num_threads
  (List.range num_threads).map (fun i =>
    { port := port_pool.getD (i % port_pool.length) 0
      startByte := i * chunk_size_per_thread
      endByte := if i = num_threads - 1 then fileSize
                 else i * chunk_size_per_thread + chunk_size_per_thread
      chunkId := i })

theorem numThreads_pos {maxT fs : Nat} (h : 0 < maxT) : 0 < numThreads maxT fs := by
  simp only [numThreads]
  omega

theorem create_chunk_threads_length (maxT fs : Nat) :
    (create_chunk_threads maxT fs).length = numThreads maxT fs := by
  simp [create_chunk_threads]

/-- Q-sized slices of a list, concatenated, followed by the tail: the whole
list.  Backbone of the range-partition facts. -/
theorem flatten_slices_aux (c : List Nat) (q : Nat) :
    ∀ m : Nat, ((List.range m).map (fun i => (c.drop (i * q)).take q)).flatten ++
      c.drop (m * q) = c := by
  intro m
  induction m with
  | zero => simp
  | succ k ih =>
    rw [List.range_succ, List.map_append, List.flatten_append]
    simp only [List.map_cons, List.map_nil, List.flatten_cons, List.flatten_nil,
      List.append_nil]
    rw [List.append_assoc]
    rw [show (c.drop (k * q)).take q ++ c.drop ((k + 1) * q) = c.drop (k * q) by
      rw [show (k + 1) * q = k * q + q by ring, ← List.drop_drop]
      exact List.take_append_drop _ _]
    exact ih

/-- The byte ranges of `create_chunk_threads` partition the file content
exactly: taking each range's slice of the content and concatenating in chunk
index order gives back the content. -/
theorem create_chunk_threads_flatten (maxT : Nat) (c : List Nat) (hm : 0 < maxT) :
    ((create_chunk_threads maxT c.length).map
      (fun spec => (c.drop spec.startByte).take (spec.endByte - spec.startByte))).flatten = c := by
  have hn : 0 < numThreads maxT c.length := numThreads_pos hm
  simp only [create_chunk_threads, List.map_map]
  set n := numThreads maxT c.length with hndef
  set q := c.length / n with hq
  have hnq : (n - 1) * q ≤ c.length := by
    have h1 : n * q ≤ c.length := by
      rw [hq, Nat.mul_comm]
      exact Nat.div_mul_le_self _ _
    have h2 : (n - 1) * q ≤ n * q := Nat.mul_le_mul_right q (Nat.sub_le n 1)
    omega
  obtain ⟨m, hm1⟩ : ∃ m, n = m + 1 := ⟨n - 1, by omega⟩
  rw [hm1, List.range_succ, List.map_append, List.flatten_append]
  simp only [List.map_cons, List.map_nil, List.flatten_cons, List.flatten_nil,
    List.append_nil, Function.comp_apply, Nat.add_sub_cancel, if_pos rfl, if_true]
  have htail : (c.drop (m * q)).take (c.length - m * q) = c.drop (m * q) := by
    apply List.take_of_length_le
    simp [List.length_drop]
  rw [htail]
  conv_rhs => rw [← flatten_slices_aux c q m]
  congr 2
  apply List.map_congr_left
  intro i hi
  have him : i < m := List.mem_range.mp hi
  simp only [Function.comp_apply]
  have hne : ¬ (i = m) := by omega
  simp only [hne, if_false]
  congr 1
  exact Nat.add_sub_cancel_left (i * q) q

theorem create_chunk_threads_getElem (maxT fs i : Nat)
    (h : i < (create_chunk_threads maxT fs).length) :
    (create_chunk_threads maxT fs)[i] =
      { port := port_pool.getD (i % port_pool.length) 0
        startByte := i * (fs / numThreads maxT fs)
        endByte := if i = numThreads maxT fs - 1 then fs
                   else i * (fs / numThreads maxT fs) + fs / numThreads maxT fs
        chunkId := i } := by
  simp [create_chunk_threads, List.getElem_map, List.getElem_range]

/-! ## Chunk connections: `_send_file_chunk` / `_handle_chunk_connection` -/

/-- The chunk metadata frame of `_send_file_chunk` (lines 280–288):
`{'file_name', 'file_path', 'chunk_id', 'start_byte', 'end_byte',
'chunk_size', 'type': 'file_chunk'}`. -/
structure ChunkMeta where
  file_name : List Nat
  file_path : List Nat
  chunk_id : Nat
  start_byte : Nat
  end_byte : Nat
  chunk_size : Nat
deriving DecidableEq, Repr

/-- Model of `_send_file_chunk` (lines 272–316): the frame and the raw bytes streamed on
one chunk connection.  The file is seeked to `startByte` and
`endByte - startByte` bytes are sent in buffers of at most `bufSize`. -/
def send_file_chunk (bufSize : Nat) (f : FileInfo) (spec : ChunkSpec) :
    ChunkMeta × List Nat :=
  ({ file_name := f.name
     file_path := f.path
     chunk_id := spec.chunkId
     start_byte := spec.startByte
     end_byte := spec.endByte
     chunk_size := spec.endByte - spec.startByte },
   (sendChunkBuffers bufSize (spec.endByte - spec.startByte)
     (spec.endByte - spec.startByte) (f.content.drop spec.startByte)).flatten)

/-- Model of `_receive_file_chunk` (lines 561–589): reads `chunk_size` bytes off the
connection into the chunk file `<file_name>.chunk_<chunk_id>`.  Result: the
chunk index and the bytes written to that chunk file. -/
def receive_file_chunk (bufSize : Nat) (conn : ChunkMeta × List Nat) :
    Nat × List Nat :=
  (conn.1.chunk_id, (recvFileData bufSize conn.1.chunk_size conn.1.chunk_size conn.2).1)

/-! ## Reassembly: `_check_and_reassemble_file` -/

/-- The comparison used by the sort on line 608 of transfer_manager.py:
sort the `(chunk_id, chunk file content)` pairs by chunk id. -/
def keyLE (a b : Nat × List Nat) : Prop := a.1 ≤ b.1

instance : DecidableRel keyLE := fun a b => Nat.decLe a.1 b.1

instance : IsTotal (Nat × List Nat) keyLE := ⟨fun a b => Nat.le_total a.1 b.1⟩

instance : IsTrans (Nat × List Nat) keyLE := ⟨fun _ _ _ => Nat.le_trans⟩

/-- Result of one `_check_and_reassemble_file` run. -/
structure ReassemblyResult where
  outputPath : String
  finalFile : Option (List Nat)
  deletedChunks : List Nat
deriving DecidableEq, Repr

/-- Model of `_check_and_reassemble_file` (lines 595–621).  `chunkFiles` is the
directory listing restricted to this file's chunk files, as `(chunk_id,
content)` pairs, in listing order.  If at least one chunk file exists they are
sorted by chunk id, concatenated into `os.path.join(save_dir, file_name)`, and
each chunk file is deleted after being consumed.  Python's stable `list.sort`
is modelled by the stable `List.insertionSort`. -/
def check_and_reassemble_file (save_dir file_name : String)
    (chunkFiles : List (Nat × List Nat)) : ReassemblyResult :=
  if chunkFiles = [] then
    { outputPath := save_dir ++ "/" ++ file_name, finalFile := none, deletedChunks := [] }
  else
    let sorted := List.insertionSort keyLE chunkFiles
    { outputPath := save_dir ++ "/" ++ file_name
      finalFile := some (sorted.map Prod.snd).flatten
      deletedChunks := sorted.map Prod.fst }

/-- Two sorted lists of `(chunk id, content)` pairs that are permutations of
each other and have no duplicate ids are equal. -/
theorem sorted_perm_nodup_eq :
    ∀ (l1 l2 : List (Nat × List Nat)), l1.Perm l2 → l1.Sorted keyLE →
      l2.Sorted keyLE → (l1.map Prod.fst).Nodup → l1 = l2 := by
  intro l1
  induction l1 with
  | nil =>
    intro l2 hp _ _ _
    exact (hp.nil_eq).symm ▸ rfl
  | cons a t1 ih =>
    intro l2 hp hs1 hs2 hn
    match l2 with
    | [] => exact absurd hp.symm (by simp)
    | b :: t2 =>
      have hab : a = b := by
        have hbmem : b ∈ a :: t1 := hp.mem_iff.mpr (List.mem_cons_self b t2)
        have hamem : a ∈ b :: t2 := hp.mem_iff.mp (List.mem_cons_self a t1)
        rcases List.mem_cons.mp hbmem with hba | hbt1
        · exact hba.symm
        · rcases List.mem_cons.mp hamem with hab2 | hat2
          · exact hab2
          · -- the keys agree by antisymmetry, contradicting Nodup
            have h1 : keyLE a b := (List.sorted_cons.mp hs1).1 b hbt1
            have h2 : keyLE b a := (List.sorted_cons.mp hs2).1 a hat2
            have hkey : a.1 = b.1 := Nat.le_antisymm h1 h2
            exfalso
            have hmem : a.1 ∈ t1.map Prod.fst := by
              rw [hkey]
              exact List.mem_map_of_mem Prod.fst hbt1
            exact (List.nodup_cons.mp hn).1 hmem
      subst hab
      have ht : t1.Perm t2 := hp.cons_inv
      exact congrArg (a :: ·) (ih t2 ht (List.sorted_cons.mp hs1).2
        (List.sorted_cons.mp hs2).2 (List.nodup_cons.mp hn).2)

/-- Reassembly is independent of the listing order of the chunk files. -/
theorem check_and_reassemble_file_perm (save_dir file_name : String)
    (l1 l2 : List (Nat × List Nat)) (hp : l1.Perm l2)
    (hn : (l1.map Prod.fst).Nodup) :
    check_and_reassemble_file save_dir file_name l1 =
      check_and_reassemble_file save_dir file_name l2 := by
  have hsortedeq : List.insertionSort keyLE l1 = List.insertionSort keyLE l2 := by
    apply sorted_perm_nodup_eq
    · exact (List.perm_insertionSort keyLE l1).trans (hp.trans
        (List.perm_insertionSort keyLE l2).symm)
    · exact List.sorted_insertionSort keyLE l1
    · exact List.sorted_insertionSort keyLE l2
    · exact ((List.perm_insertionSort keyLE l1).map Prod.fst).nodup_iff.mpr hn
  by_cases h1 : l1 = []
  · subst h1
    have h2 : l2 = [] := hp.nil_eq.symm
    subst h2
    rfl
  · have h2 : l2 ≠ [] := fun h => h1 (List.Perm.eq_nil (h ▸ hp))
    simp only [check_and_reassemble_file, h1, h2, if_false, hsortedeq]

/-! ## Inline small files on the control connection -/

/-- One file as recorded by `_receive_small_files` (name, declared size, bytes
written to disk). -/
structure RecvFile where
  name : List Nat
  size : Nat
  content : List Nat
deriving DecidableEq, Repr

/-- The bytes `_send_small_files` (lines 205–241) puts on the control
connection for one file: a 4-byte big-endian length prefix, the metadata
frame, then the file bytes sent by the buffered loop. -/
def smallFileFrame (bufSize : Nat) (f : FileInfo) : List Nat :=
  let meta : SmallMeta := ⟨f.name, f.size, f.path, smallFileTypeBytes⟩
  natToBytes4 (encodeMeta meta).length ++ encodeMeta meta ++
    (sendSmallBuffers bufSize f.content.length f.size f.content).flatten

/-- Everything the sender writes on the control connection after reading
`"READY"`: the small-file frames (lines 166–171, 205–241) followed by
`b"TRANSFER_COMPLETE"` (line 183). -/
def controlStreamAfterReady (bufSize : Nat) (smallFiles : List FileInfo) : List Nat :=
  (smallFiles.map (smallFileFrame bufSize)).flatten ++ markerBytes

/-- Model of `_receive_small_files` (lines 623–670).  The `while True` loop reads a
4-byte length prefix, then that many bytes, JSON-decodes them, and on success
receives the file bytes; it breaks on a zero length prefix, a failed decode,
or a non-`small_file` type.  `conn.recv(n)` on the modelled stream returns
`stream.take n` (the sender eventually closes, so a read past the end returns
what is left).  Returns the received files and the unread stream. -/
def receive_small_files (bufSize : Nat) : Nat → List Nat → List RecvFile × List Nat
  | 0, stream => ([], stream)
  | fuel + 1, stream =>
    let msize := bytesToNat (stream.take 4)
    if msize = 0 then ([], stream.drop 4)
    else
      let rest := stream.drop 4
      match decodeMeta (rest.take msize) with
      | none => ([], rest.drop msize)
      | some m =>
        if m.mtype = smallFileTypeBytes then
          let afterMeta := rest.drop msize
          let rd := recvFileData bufSize m.size m.size afterMeta
          let more := receive_small_files bufSize fuel rd.2
          (⟨m.name, m.size, rd.1⟩ :: more.1, more.2)
        else ([], rest.drop msize)

/-- Well-formedness of a sender-side small file: its content has the declared
size and the metadata frame fits the 4-byte length prefix. -/
def wfSmallFile (f : FileInfo) : Prop :=
  f.content.length = f.size ∧
    (encodeMeta ⟨f.name, f.size, f.path, smallFileTypeBytes⟩).length < 4294967296 ∧
    f.size < 4294967296

instance (f : FileInfo) : Decidable (wfSmallFile f) := by
  unfold wfSmallFile
  infer_instance

/-- On the stream `_send_small_files` produces, `_receive_small_files`
receives every file byte-for-byte — and then consumes the
`TRANSFER_COMPLETE` marker itself: the first four marker bytes `"TRAN"` are
read as a length prefix (1414676814), the remaining 13 bytes fail JSON
decoding, and the loop breaks having emptied the stream. -/
theorem receive_small_files_roundtrip (bufSize : Nat) (hb : 0 < bufSize) :
    ∀ (files : List FileInfo) (fuel : Nat), files.length < fuel →
      (∀ f ∈ files, wfSmallFile f) →
      receive_small_files bufSize fuel (controlStreamAfterReady bufSize files) =
        (files.map (fun f => ⟨f.name, f.size, f.content⟩), []) := by
  intro files
  induction files with
  | nil =>
    intro fuel hf _
    match fuel with
    | n + 1 =>
      have h0 : ¬ (bytesToNat (List.take 4 markerBytes) = 0) := by decide
      have hdec : decodeMeta (List.take (bytesToNat (List.take 4 markerBytes))
          (List.drop 4 markerBytes)) = none := by decide
      have hdrop : List.drop (bytesToNat (List.take 4 markerBytes))
          (List.drop 4 markerBytes) = ([] : List Nat) := by decide
      simp only [controlStreamAfterReady, List.map_nil, List.flatten_nil,
        List.nil_append, receive_small_files, h0, if_false, hdec, hdrop]
  | cons f fs ih =>
    intro fuel hf hwf
    match fuel with
    | n + 1 =>
      have hwff : wfSmallFile f := hwf f (List.mem_cons_self f fs)
      obtain ⟨hlen, hmlen, hszlt⟩ := hwff
      set meta : SmallMeta := ⟨f.name, f.size, f.path, smallFileTypeBytes⟩ with hmeta
      have hstream : controlStreamAfterReady bufSize (f :: fs) =
          natToBytes4 (encodeMeta meta).length ++ (encodeMeta meta ++
            (f.content ++ controlStreamAfterReady bufSize fs)) := by
        simp only [controlStreamAfterReady, List.map_cons, List.flatten_cons,
          smallFileFrame, ← hmeta]
        rw [show (sendSmallBuffers bufSize f.content.length f.size f.content).flatten
            = f.content by
          rw [← hlen]
          exact sendSmallBuffers_flatten bufSize hb f.content.length f.content
            (Nat.le_refl _)]
        simp [List.append_assoc]
      rw [hstream]
      simp only [receive_small_files]
      have htake4 : (natToBytes4 (encodeMeta meta).length ++ (encodeMeta meta ++
          (f.content ++ controlStreamAfterReady bufSize fs))).take 4 =
          natToBytes4 (encodeMeta meta).length := by
        rw [show (4 : Nat) = (natToBytes4 (encodeMeta meta).length).length from rfl]
        exact List.take_left _ _
      have hdrop4 : (natToBytes4 (encodeMeta meta).length ++ (encodeMeta meta ++
          (f.content ++ controlStreamAfterReady bufSize fs))).drop 4 =
          encodeMeta meta ++ (f.content ++ controlStreamAfterReady bufSize fs) := by
        rw [show (4 : Nat) = (natToBytes4 (encodeMeta meta).length).length from rfl]
        exact List.drop_left _ _
      rw [htake4, bytesToNat_natToBytes4 hmlen]
      have hpos : ¬ ((encodeMeta meta).length = 0) := by
        have := encodeMeta_length_pos meta
        omega
      simp only [hpos, if_false, hdrop4]
      rw [List.take_left, List.drop_left]
      rw [decodeMeta_encodeMeta meta hszlt]
      simp only [hmeta, if_true]
      have hrd : recvFileData bufSize f.size f.size
          (f.content ++ controlStreamAfterReady bufSize fs) =
          (f.content, controlStreamAfterReady bufSize fs) := by
        have h1 : f.size ≤ (f.content ++ controlStreamAfterReady bufSize fs).length := by
          simp only [List.length_append]
          omega
        rw [recvFileData_eq bufSize hb f.size f.size _ (Nat.le_refl _) h1]
        rw [show f.size = f.content.length from hlen.symm]
        rw [List.take_left, List.drop_left]
      rw [hrd]
      simp only [List.length_cons] at hf
      rw [ih n (by omega) (fun g hg => hwf g (List.mem_cons_of_mem f hg))]
      simp

/-- Every frame contributes at least one byte, so the control stream is at
least as long as the file list. -/
theorem controlStream_length_ge (bufSize : Nat) (files : List FileInfo) :
    files.length ≤ (controlStreamAfterReady bufSize files).length := by
  induction files with
  | nil => simp [controlStreamAfterReady]
  | cons f fs ih =>
    have hstep : controlStreamAfterReady bufSize (f :: fs) =
        smallFileFrame bufSize f ++ controlStreamAfterReady bufSize fs := by
      simp [controlStreamAfterReady, List.append_assoc]
    rw [hstep]
    simp only [List.length_append, List.length_cons]
    have hframe : 4 ≤ (smallFileFrame bufSize f).length := by
      simp only [smallFileFrame, List.length_append, natToBytes4_length]
      omega
    omega

/-- What `_handle_multi_threaded_transfer` does on the control connection
after sending `"READY"` (lines 415–437): receive the inline small files when
`metadata['small_files'] > 0`, then read `completion_signal = conn.recv(1024)`
and run the finalization block (grace sleep, counters, history) only if the
signal equals `b"TRANSFER_COMPLETE"`. -/
structure AfterReadyResult where
  receivedSmall : List RecvFile
  completionSignal : List Nat
  finalized : Bool
deriving DecidableEq, Repr

def handle_control_after_ready (bufSize smallCount : Nat) (stream : List Nat) :
    AfterReadyResult :=
  let r := if 0 < smallCount then receive_small_files bufSize (stream.length + 1) stream
           else ([], stream)
  let signal := r.2.take 1024
  { receivedSmall := r.1
    completionSignal := signal
    finalized := decide (signal = markerBytes) }

/-! ## Accept/reject on the receiver, send outcome on the sender -/

/-- The externally visible actions of `_handle_multi_threaded_transfer`
(lines 381–437), in program order. -/
inductive RecvStep where
  | sendReady
  | sendRejected
  | prepareSaveDir
  | startListeners
  | recvSmallFiles
  | recvCompletion
deriving DecidableEq, Repr

/-- Lines 388–420: if auto-accept is off and the user declines, the handler
sends `b"REJECTED"` and returns at once; otherwise it sends `b"READY"`,
prepares the save directory, starts the chunk listeners, receives inline
small files (if any are announced) and reads the completion signal. -/
def handle_multi_threaded_transfer_steps (autoAccept accept : Bool)
    (smallCount : Nat) : List RecvStep :=
  if autoAccept = false ∧ accept = false then [RecvStep.sendRejected]
  else
    [RecvStep.sendReady, RecvStep.prepareSaveDir, RecvStep.startListeners] ++
      (if 0 < smallCount then [RecvStep.recvSmallFiles] else []) ++
      [RecvStep.recvCompletion]

/-- Sender-side outcome of `send_files` (lines 109–203) as a function of the
confirmation bytes read on line 148.  `controlStream` and `chunkConns` are
what is transmitted after the confirmation; `historyStatus` is the status
string passed to `add_to_history`; `recordStatus` is the final value of the
`status` field of `active_transfers[transfer_id]`, which is set to
`'Preparing'` at creation (app.py lines 216–225) and never written again. -/
structure SendOutcome where
  controlStream : List Nat
  chunkConns : List (ChunkMeta × List Nat)
  historyStatus : String
  recordStatus : String
deriving DecidableEq, Repr

def send_files_outcome (bufSize threshold maxT : Nat) (files : List FileInfo)
    (confirmation : List Nat) : SendOutcome :=
  if confirmation = readyBytes then
    { controlStream := controlStreamAfterReady bufSize
        (files.filter (fun f => decide (f.size ≤ threshold)))
      chunkConns := (files.filter (fun f => decide (threshold < f.size))).flatMap
        (fun f => (create_chunk_threads maxT f.size).map (send_file_chunk bufSize f))
      historyStatus := "Success"
      recordStatus := "Preparing" }
  else
    { controlStream := []
      chunkConns := []
      historyStatus := "Send Failed"
      recordStatus := "Preparing" }

/-! ## The active-transfers registry and the chunk listeners -/

/-- Transfer identifiers.  The code builds them as strings:
`f"send_{int(time.time())}"` (app.py line 215) for outgoing transfers and
`f"recv_{int(time.time())}_{addr[0]}"` (transfer_manager.py line 356) for
incoming ones.  The two shapes are distinguished by their prefix, so they are
modelled as the two constructors of an inductive type. -/
inductive TransferId where
  | send (t : Nat)
  | recv (t : Nat) (ip : String)
deriving DecidableEq, Repr

/-- The only operations the code ever performs on `self.active_transfers`:
the single insertion site app.py line 216 (which always inserts a
`send_{t}` id) and deletions (transfer_manager.py line 446, app.py cleanup). -/
inductive RegistryEvent where
  | insertSend (t : Nat)
  | removeId (id : TransferId)
deriving DecidableEq, Repr

def applyEvent (reg : List TransferId) : RegistryEvent → List TransferId
  | RegistryEvent.insertSend t => TransferId.send t :: reg
  | RegistryEvent.removeId id => reg.erase id

/-- The key set of `self.app.active_transfers` after a sequence of events,
starting from the empty dict (app.py line 76). -/
def registry (evs : List RegistryEvent) : List TransferId :=
  evs.foldl applyEvent []

theorem registry_all_send (evs : List RegistryEvent) :
    ∀ id ∈ registry evs, ∃ t, id = TransferId.send t := by
  suffices h : ∀ (evs : List RegistryEvent) (init : List TransferId),
      (∀ id ∈ init, ∃ t, id = TransferId.send t) →
      ∀ id ∈ evs.foldl applyEvent init, ∃ t, id = TransferId.send t by
    exact h evs [] (by simp)
  intro evs
  induction evs with
  | nil => intro init hinit id hid; exact hinit id hid
  | cons e rest ih =>
    intro init hinit id hid
    refine ih (applyEvent init e) ?_ id hid
    intro id2 hid2
    match e with
    | RegistryEvent.insertSend t =>
      rcases List.mem_cons.mp hid2 with h | h
      · exact ⟨t, h⟩
      · exact hinit id2 h
    | RegistryEvent.removeId rid =>
      exact hinit id2 (List.mem_of_mem_erase hid2)

theorem recv_not_mem_registry (evs : List RegistryEvent) (t : Nat) (ip : String) :
    TransferId.recv t ip ∉ registry evs := by
  intro hmem
  obtain ⟨u, hu⟩ := registry_all_send evs _ hmem
  exact TransferId.noConfusion hu

/-- Model of `_start_chunk_listeners` (lines 511–515): one listener thread per port of
`self.port_pool`, each given the transfer id. -/
def start_chunk_listeners (tid : TransferId) : List (Nat × TransferId) :=
  port_pool.map (fun p => (p, tid))

/-- The accept loop of `_chunk_listener` (lines 526–534):
`while transfer_id in self.app.active_transfers: conn = sock.accept(); spawn
handler`.  `active k` is the registry key set at the k-th guard check and
`pending` the connections that arrive in order; the loop accepts each next
connection only while the guard holds. -/
def chunk_listener_loop {α : Type} (active : Nat → List TransferId)
    (tid : TransferId) : Nat → List α → List α
  | _, [] => []
  | k, c :: rest =>
    if tid ∈ active k then c :: chunk_listener_loop active tid (k + 1) rest
    else []

theorem chunk_listener_loop_recv_eq_nil {α : Type}
    (evs : Nat → List RegistryEvent) (t : Nat) (ip : String) :
    ∀ (k : Nat) (conns : List α),
      chunk_listener_loop (fun j => registry (evs j)) (TransferId.recv t ip) k conns = [] := by
  intro k conns
  match conns with
  | [] => rfl
  | c :: rest =>
    simp only [chunk_listener_loop]
    rw [if_neg (recv_not_mem_registry (evs k) t ip)]

/-! ## Progress accounting (sender side) -/

/-- Model of `total_size = sum(f['size'] for f in files)` (line 117). -/
def total_size (files : List FileInfo) : Nat := (files.map FileInfo.size).sum

/-- The successive amounts added to `chunk_progress[transfer_id]['sent']`
under `transfer_locks[transfer_id]` over the course of a transfer: one entry
of `len(chunk)` per buffer written by `_send_small_files` (lines 231–233) and
by `_send_file_chunk` (lines 308–310). -/
def progress_increments (bufSize threshold maxT : Nat) (files : List FileInfo) :
    List Nat :=
  (files.filter (fun f => decide (f.size ≤ threshold))).flatMap
    (fun f => (sendSmallBuffers bufSize f.content.length f.size f.content).map
      List.length)
  ++ (files.filter (fun f => decide (threshold < f.size))).flatMap
    (fun f => (create_chunk_threads maxT f.size).flatMap
      (fun spec => (sendChunkBuffers bufSize (spec.endByte - spec.startByte)
        (spec.endByte - spec.startByte) (f.content.drop spec.startByte)).map
        List.length))

/-- The value of the `sent` counter after the first `k` updates. -/
def progress_value (incs : List Nat) (k : Nat) : Nat := (incs.take k).sum

theorem create_chunk_threads_bounds (maxT fs : Nat) (hm : 0 < maxT) :
    ∀ spec ∈ create_chunk_threads maxT fs,
      spec.startByte ≤ spec.endByte ∧ spec.endByte ≤ fs := by
  intro spec hspec
  have hn : 0 < numThreads maxT fs := numThreads_pos hm
  simp only [create_chunk_threads, List.mem_map, List.mem_range] at hspec
  obtain ⟨i, hi, hspec⟩ := hspec
  subst hspec
  simp only
  set n := numThreads maxT fs with hndef
  set q := fs / n with hq
  have hnq : n * q ≤ fs := by
    rw [hq, Nat.mul_comm]
    exact Nat.div_mul_le_self _ _
  by_cases hl : i = n - 1
  · simp only [hl, if_pos rfl]
    constructor
    · calc (n - 1) * q ≤ n * q := Nat.mul_le_mul_right q (Nat.sub_le n 1)
        _ ≤ fs := hnq
    · exact Nat.le_refl fs
  · simp only [hl, if_false]
    constructor
    · exact Nat.le_add_right _ _
    · have hi1 : i + 1 ≤ n := hi
      calc i * q + q = (i + 1) * q := by ring
        _ ≤ n * q := Nat.mul_le_mul_right q hi1
        _ ≤ fs := hnq

/-- The chunk byte-range lengths sum to the file size. -/
theorem create_chunk_threads_sum (maxT fs : Nat) (hm : 0 < maxT) :
    ((create_chunk_threads maxT fs).map
      (fun spec => spec.endByte - spec.startByte)).sum = fs := by
  have hflat := create_chunk_threads_flatten maxT (List.replicate fs 0) hm
  rw [List.length_replicate] at hflat
  have hlen := congrArg List.length hflat
  rw [List.length_flatten, List.map_map, List.length_replicate] at hlen
  have hmapeq : (create_chunk_threads maxT fs).map
      (fun spec => spec.endByte - spec.startByte) =
      (create_chunk_threads maxT fs).map (List.length ∘ fun spec =>
        List.take (spec.endByte - spec.startByte)
          (List.drop spec.startByte (List.replicate fs 0))) := by
    apply List.map_congr_left
    intro spec hspec
    obtain ⟨hse, hef⟩ := create_chunk_threads_bounds maxT fs hm spec hspec
    simp only [Function.comp_apply, List.length_take, List.length_drop,
      List.length_replicate]
    omega
  rw [hmapeq]
  exact hlen

/-- Prefix sums of a list of naturals are monotone. -/
theorem progress_value_mono (incs : List Nat) (i j : Nat) (hij : i ≤ j) :
    progress_value incs i ≤ progress_value incs j := by
  simp only [progress_value]
  have h : incs.take i = (incs.take j).take i := by
    rw [List.take_take, Nat.min_eq_left hij]
  rw [h]
  conv_rhs => rw [← List.take_append_drop i (incs.take j)]
  rw [List.sum_append]
  omega

/-! ## Discovery: `_discovery_listener` / `_discover_hosts` -/

/-- An `announce` reply (lines 45–52). -/
structure Announce where
  name : String
  port : Nat
  version : String
  status : String
  timestamp : Nat
deriving DecidableEq, Repr

/-- Model of `int(port_val) if port_val.isdigit() else 12345` (line 48):
`str.isdigit` is nonempty-and-all-digits, `int` of a digit string is its
decimal value. -/
def parsePortVal (portVal : String) : Nat :=
  if portVal.toList ≠ [] ∧ portVal.toList.all Char.isDigit then
    portVal.toList.foldl (fun n c => n * 10 + (c.toNat - 48)) 0
  else 12345

/-- Model of `_discovery_listener` (lines 29–59): on a `discover` probe, reply with
name, port (`int(port_val) if port_val.isdigit() else 12345`), version
`"2.0"`, status `"receiving"`/`"idle"`, and the current time. -/
def discovery_listener_reply (cfgName portVal : String) (isReceiving : Bool)
    (now : Nat) (reqType : String) : Option Announce :=
  if reqType = "discover" then
    some { name := cfgName
           port := parsePortVal portVal
           version := "2.0"
           status := if isReceiving then "receiving" else "idle"
           timestamp := now }
  else none

/-- A value stored in the discovered-hosts dict. -/
inductive JVal where
  | s (v : String)
  | n (v : Nat)
deriving DecidableEq, Repr

/-- The entry `_discover_hosts` stores for a reply (lines 88–93): the dict
`{'name', 'port', 'version', 'last_seen'}`, with `last_seen = time.time()`
(the local clock, not the reply's timestamp). -/
def discoveredEntry (resp : Announce) (now : Nat) : List (String × JVal) :=
  [("name", JVal.s resp.name), ("port", JVal.n resp.port),
   ("version", JVal.s resp.version), ("last_seen", JVal.n now)]

/-- Python dict assignment `d[k] = v`: replace in place if the key exists,
else append (insertion order preserved). -/
def dictSet {α : Type} (d : List (String × α)) (k : String) (v : α) :
    List (String × α) :=
  if (d.map Prod.fst).contains k then
    d.map (fun p => if p.1 = k then (k, v) else p)
  else d ++ [(k, v)]

/-- The collection loop of `_discover_hosts` (lines 80–97): each `announce`
reply `(source ip, message, local time)` is stored under its source ip,
last-seen wins on duplicates.  A run with no replies (the 5-second timeout
fires first) falls out of the loop and returns the dict built so far. -/
def discover_hosts_collect (replies : List (String × Announce × Nat)) :
    List (String × List (String × JVal)) :=
  replies.foldl (fun acc r => dictSet acc r.1 (discoveredEntry r.2.1 r.2.2)) []

/-! ## Destination paths: `_get_unique_filename` -/

/-- The counter loop of `_get_unique_filename` (lines 693–695):
`counter = 1; while os.path.exists(f"{base}_{counter}{ext}"): counter += 1`.
`ex` is `os.path.exists` on the receiver's filesystem. -/
def get_unique_filename_loop (ex : String → Bool) (base ext : String) :
    Nat → Nat → Nat
  | 0, counter => counter
  | fuel + 1, counter =>
    if ex (base ++ "_" ++ Nat.repr counter ++ ext) then
      get_unique_filename_loop ex base ext fuel (counter + 1)
    else counter

/-- Model of `_get_unique_filename` (lines 689–697).  `os.path.splitext(filepath)` is
modelled by passing the decomposition `(base, ext)` with
`filepath = base ++ ext`. -/
def get_unique_filename (overwrite : Bool) (ex : String → Bool) (fuel : Nat)
    (base ext : String) : String :=
  if overwrite = false ∧ ex (base ++ ext) = true then
    base ++ "_" ++ Nat.repr (get_unique_filename_loop ex base ext fuel 1) ++ ext
  else base ++ ext

theorem get_unique_filename_loop_spec (ex : String → Bool) (base ext : String) :
    ∀ (fuel c : Nat),
      (∃ j, j < fuel ∧ ex (base ++ "_" ++ Nat.repr (c + j) ++ ext) = false) →
      ex (base ++ "_" ++ Nat.repr (get_unique_filename_loop ex base ext fuel c) ++ ext)
          = false ∧
        c ≤ get_unique_filename_loop ex base ext fuel c ∧
        ∀ j, c ≤ j → j < get_unique_filename_loop ex base ext fuel c →
          ex (base ++ "_" ++ Nat.repr j ++ ext) = true := by
  intro fuel
  induction fuel with
  | zero =>
    intro c h
    obtain ⟨j, hj, _⟩ := h
    omega
  | succ n ih =>
    intro c h
    cases hex : ex (base ++ "_" ++ Nat.repr c ++ ext) with
    | true =>
      have hrec := ih (c + 1) (by
        obtain ⟨j, hj, hexj⟩ := h
        match j with
        | 0 =>
          rw [Nat.add_zero] at hexj
          rw [hex] at hexj
          exact absurd hexj (by simp)
        | j + 1 =>
          exact ⟨j, by omega, by
            rw [show c + 1 + j = c + (j + 1) by omega]
            exact hexj⟩)
      simp only [get_unique_filename_loop, hex, if_true]
      obtain ⟨h1, h2, h3⟩ := hrec
      refine ⟨h1, by omega, ?_⟩
      intro j hcj hjk
      by_cases hjc : j = c
      · rw [hjc]
        exact hex
      · exact h3 j (by omega) hjk
    | false =>
      simp only [get_unique_filename_loop, hex, Bool.false_eq_true, if_false]
      refine ⟨trivial, Nat.le_refl c, fun j h1 h2 => by omega⟩

/-! ## Claim theorems -/

/-- C1 (code bug): round-trip integrity fails on the multi-chunk path.  For
any incoming transfer the receiver's chunk listeners guard on
`transfer_id in self.app.active_transfers`, but a `recv_*` id is never
inserted into that registry (the only insertion site, app.py line 216,
inserts `send_*` ids), so — whatever registry events occur and however many
chunk connections the sender opens — zero chunk connections are accepted, no
chunk file is written, and reassembly produces no final file for a file above
the split threshold. -/
theorem C1_chunked_file_never_written
    (evs : Nat → List RegistryEvent) (t : Nat) (ip : String) (bufSize : Nat)
    (saveDir fileName : String) (conns : List (ChunkMeta × List Nat)) :
    ((chunk_listener_loop (fun j => registry (evs j)) (TransferId.recv t ip) 0
        conns).map (receive_file_chunk bufSize)) = [] ∧
    (check_and_reassemble_file saveDir fileName
      ((chunk_listener_loop (fun j => registry (evs j)) (TransferId.recv t ip) 0
        conns).map (receive_file_chunk bufSize))).finalFile = none := by
  rw [chunk_listener_loop_recv_eq_nil]
  exact ⟨rfl, rfl⟩

/-- C2 counterexample: after reading `"REJECTED"` the sender's
`TransferRecord` status is still `'Preparing'` — the record is never moved to
a rejected state; the rejection is only recorded in the history as
`'Send Failed'`. -/
theorem C2_counterexample :
    (send_files_outcome 1048576 104857600 4 [] rejectedBytes).recordStatus =
      "Preparing" ∧
    (send_files_outcome 1048576 104857600 4 [] rejectedBytes).historyStatus =
      "Send Failed" ∧
    ("Preparing" : String) ≠ "Rejected" := by
  refine ⟨?_, ?_, by decide⟩ <;>
    simp [send_files_outcome, rejectedBytes, readyBytes]

/-- C2 (amended): if the receiver declines, it sends exactly `"REJECTED"` and
performs no other step (no save directory, no chunk listeners, no file
bytes); the sender, on any confirmation other than `"READY"`, sends no file
or chunk data and records `'Send Failed'` in the history — but its
`TransferRecord` status remains `'Preparing'`; no rejected state is ever
stored on the record. -/
theorem C2_rejection_short_circuits
    (bufSize threshold maxT : Nat) (files : List FileInfo)
    (confirmation : List Nat) (hconf : confirmation ≠ readyBytes)
    (autoAccept accept : Bool) (hauto : autoAccept = false)
    (hacc : accept = false) (smallCount : Nat) :
    handle_multi_threaded_transfer_steps autoAccept accept smallCount =
      [RecvStep.sendRejected] ∧
    RecvStep.prepareSaveDir ∉
      handle_multi_threaded_transfer_steps autoAccept accept smallCount ∧
    RecvStep.startListeners ∉
      handle_multi_threaded_transfer_steps autoAccept accept smallCount ∧
    (send_files_outcome bufSize threshold maxT files confirmation).controlStream
      = [] ∧
    (send_files_outcome bufSize threshold maxT files confirmation).chunkConns
      = [] ∧
    (send_files_outcome bufSize threshold maxT files confirmation).historyStatus
      = "Send Failed" ∧
    (send_files_outcome bufSize threshold maxT files confirmation).recordStatus
      = "Preparing" := by
  subst hauto hacc
  have hsteps : handle_multi_threaded_transfer_steps false false smallCount =
      [RecvStep.sendRejected] := by
    simp [handle_multi_threaded_transfer_steps]
  refine ⟨hsteps, ?_, ?_, ?_, ?_, ?_, ?_⟩ <;>
    simp [hsteps, send_files_outcome, hconf]

theorem C2_witness :
    handle_multi_threaded_transfer_steps false false 3 = [RecvStep.sendRejected] ∧
    RecvStep.prepareSaveDir ∉ handle_multi_threaded_transfer_steps false false 3 ∧
    RecvStep.startListeners ∉ handle_multi_threaded_transfer_steps false false 3 ∧
    (send_files_outcome 1048576 104857600 4 [] rejectedBytes).controlStream = [] ∧
    (send_files_outcome 1048576 104857600 4 [] rejectedBytes).chunkConns = [] ∧
    (send_files_outcome 1048576 104857600 4 [] rejectedBytes).historyStatus =
      "Send Failed" ∧
    (send_files_outcome 1048576 104857600 4 [] rejectedBytes).recordStatus =
      "Preparing" :=
  C2_rejection_short_circuits 1048576 104857600 4 [] rejectedBytes (by decide)
    false false rfl rfl 3

/-- C3 (confirmed): with all chunk files present and distinct chunk indices,
`_check_and_reassemble_file` produces the concatenation of the chunk contents
sorted by ascending chunk index, deletes every chunk file, and the outcome is
the same for any listing/arrival order of the chunks. -/
theorem C3_reassembly_order_independent
    (saveDir fileName : String) (l1 l2 : List (Nat × List Nat))
    (hp : l1.Perm l2) (hn : (l1.map Prod.fst).Nodup) (hne : l1 ≠ []) :
    check_and_reassemble_file saveDir fileName l1 =
      check_and_reassemble_file saveDir fileName l2 ∧
    (∃ sorted : List (Nat × List Nat), sorted.Perm l1 ∧
      (sorted.map Prod.fst).Sorted (· ≤ ·) ∧
      (check_and_reassemble_file saveDir fileName l1).finalFile =
        some (sorted.map Prod.snd).flatten ∧
      (check_and_reassemble_file saveDir fileName l1).deletedChunks =
        sorted.map Prod.fst) ∧
    (check_and_reassemble_file saveDir fileName l1).deletedChunks.Perm
      (l1.map Prod.fst) := by
  refine ⟨check_and_reassemble_file_perm saveDir fileName l1 l2 hp hn, ?_, ?_⟩
  · refine ⟨List.insertionSort keyLE l1, List.perm_insertionSort keyLE l1, ?_, ?_, ?_⟩
    · have hs : (List.insertionSort keyLE l1).Sorted keyLE :=
        List.sorted_insertionSort keyLE l1
      exact List.pairwise_map.mpr hs
    · simp [check_and_reassemble_file, hne]
    · simp [check_and_reassemble_file, hne]
  · have : (check_and_reassemble_file saveDir fileName l1).deletedChunks =
        (List.insertionSort keyLE l1).map Prod.fst := by
      simp [check_and_reassemble_file, hne]
    rw [this]
    exact (List.perm_insertionSort keyLE l1).map Prod.fst

theorem C3_witness :
    check_and_reassemble_file "dl" "big.bin" [(1, [30, 40]), (0, [10, 20])] =
      check_and_reassemble_file "dl" "big.bin" [(0, [10, 20]), (1, [30, 40])] ∧
    (check_and_reassemble_file "dl" "big.bin"
      [(1, [30, 40]), (0, [10, 20])]).finalFile = some [10, 20, 30, 40] ∧
    (check_and_reassemble_file "dl" "big.bin"
      [(1, [30, 40]), (0, [10, 20])]).deletedChunks.Perm [1, 0] := by
  have h := C3_reassembly_order_independent "dl" "big.bin"
    [(1, [30, 40]), (0, [10, 20])] [(0, [10, 20]), (1, [30, 40])]
    (by decide) (by decide) (by decide)
  refine ⟨h.1, ?_, ?_⟩
  · decide
  · exact h.2.2

/-- C4 (code bug): `_start_chunk_listeners` does spawn one listener per pool
port (all 20 of them), but each listener's accept loop is guarded by
membership of the incoming transfer's `recv_*` id in `active_transfers`,
which never contains it; so every listener accepts zero chunk connections
instead of accepting until the record is removed. -/
theorem C4_chunk_listeners_accept_nothing (t : Nat) (ip : String) :
    (start_chunk_listeners (TransferId.recv t ip)).map Prod.fst = port_pool ∧
    (start_chunk_listeners (TransferId.recv t ip)).length = 20 ∧
    (∀ (evs : Nat → List RegistryEvent) (k : Nat)
      (conns : List (ChunkMeta × List Nat)),
      chunk_listener_loop (fun j => registry (evs j)) (TransferId.recv t ip) k
        conns = []) := by
  refine ⟨?_, ?_, ?_⟩
  · rw [start_chunk_listeners, List.map_map]
    have hid : (Prod.fst ∘ fun p : Nat => (p, TransferId.recv t ip)) = id := rfl
    rw [hid, List.map_id]
  · simp [start_chunk_listeners, port_pool_length]
  · intro evs k conns
    exact chunk_listener_loop_recv_eq_nil evs t ip k conns

/-- C5 counterexample: with `max_threads = 8` (the settings UI allows up to
8) and a 500 MB file, the code opens 4 chunk connections, not the claimed
`min(maxThreads, max(1, fileSize // minChunkSize)) = 5`: line 247 first caps
the thread count at 4. -/
theorem C5_counterexample :
    (send_files_outcome 1048576 104857600 8
      [{ name := [97], path := [97], size := 524288000, content := [] }]
      readyBytes).chunkConns.length = 4 ∧
    min 8 (max 1 (524288000 / min_chunk_size)) = 5 := by
  constructor
  · rfl
  · decide

/-- C5 (amended): for a file above the split threshold the sender opens
exactly `min(min(maxThreads, 4), max(1, fileSize // minChunkSize))` chunk
connections, `minChunkSize` fixed at 100 MB and `//` integer division; the
inner cap at 4 applies before the claimed formula.  The concrete scenario
(250 MB file, max threads 4) does yield exactly 2 connections. -/
theorem C5_num_chunk_connections (bufSize threshold maxT : Nat) (f : FileInfo)
    (hlarge : threshold < f.size) :
    (send_files_outcome bufSize threshold maxT [f] readyBytes).chunkConns.length
      = min (min maxT 4) (max 1 (f.size / min_chunk_size)) ∧
    (create_chunk_threads 4 (250 * 1024 * 1024)).length = 2 := by
  constructor
  · simp [send_files_outcome, hlarge, create_chunk_threads_length, numThreads]
  · rfl

theorem C5_witness :
    (send_files_outcome 1024 104857600 4
      [{ name := [98], path := [98], size := 262144000, content := [] }]
      readyBytes).chunkConns.length =
      min (min 4 4) (max 1 (262144000 / min_chunk_size)) ∧
    (create_chunk_threads 4 (250 * 1024 * 1024)).length = 2 :=
  C5_num_chunk_connections 1024 104857600 4
    { name := [98], path := [98], size := 262144000, content := [] } (by decide)

/-- C6 (confirmed): the ranges of `_create_chunk_threads` are contiguous,
pairwise disjoint and cover exactly `[0, fileSize)`: range `i` starts at
`i * (fileSize / numThreads)`, the first `numThreads - 1` ranges have length
`fileSize / numThreads`, the last ends at `fileSize`; slicing any content of
that length by the ranges and concatenating in index order restores it; and
chunk `i` targets `port_pool[i % 20]`, the pool being the 20 fixed ports
12346–12365. -/
theorem C6_chunk_ranges (maxT fs : Nat) (hm : 0 < maxT) (c : List Nat)
    (hc : c.length = fs) :
    (create_chunk_threads maxT fs).length = numThreads maxT fs ∧
    (∀ i, (h : i < (create_chunk_threads maxT fs).length) →
      ((create_chunk_threads maxT fs)[i].chunkId = i ∧
       (create_chunk_threads maxT fs)[i].startByte =
         i * (fs / numThreads maxT fs) ∧
       (create_chunk_threads maxT fs)[i].port =
         port_pool.getD (i % port_pool.length) 0)) ∧
    (∀ i, (h : i < (create_chunk_threads maxT fs).length) → i ≠ numThreads maxT fs - 1 →
      (create_chunk_threads maxT fs)[i].endByte -
        (create_chunk_threads maxT fs)[i].startByte = fs / numThreads maxT fs) ∧
    (∀ i, (h : i + 1 < (create_chunk_threads maxT fs).length) →
      (create_chunk_threads maxT fs)[i].endByte =
        ((create_chunk_threads maxT fs)[i + 1]).startByte) ∧
    (∀ (h : 0 < (create_chunk_threads maxT fs).length),
      (create_chunk_threads maxT fs)[0].startByte = 0) ∧
    (∀ (h : 0 < (create_chunk_threads maxT fs).length),
      ((create_chunk_threads maxT fs)[(create_chunk_threads maxT fs).length - 1]).endByte = fs) ∧
    ((create_chunk_threads maxT fs).map
      (fun spec => (c.drop spec.startByte).take (spec.endByte - spec.startByte))).flatten = c ∧
    ((create_chunk_threads maxT fs).map
      (fun spec => spec.endByte - spec.startByte)).sum = fs ∧
    port_pool = [12346, 12347, 12348, 12349, 12350, 12351, 12352, 12353, 12354,
      12355, 12356, 12357, 12358, 12359, 12360, 12361, 12362, 12363, 12364,
      12365] ∧
    port_pool.length = 20 := by
  have hn : 0 < numThreads maxT fs := numThreads_pos hm
  have hlen : (create_chunk_threads maxT fs).length = numThreads maxT fs :=
    create_chunk_threads_length maxT fs
  refine ⟨hlen, ?_, ?_, ?_, ?_, ?_, ?_, ?_, port_pool_explicit, port_pool_length⟩
  · intro i h
    rw [create_chunk_threads_getElem maxT fs i h]
    exact ⟨rfl, rfl, rfl⟩
  · intro i h hne
    rw [create_chunk_threads_getElem maxT fs i h]
    simp only [hne, if_false]
    exact Nat.add_sub_cancel_left _ _
  · intro i h
    have h1 : i < (create_chunk_threads maxT fs).length := by omega
    rw [create_chunk_threads_getElem maxT fs i h1,
      create_chunk_threads_getElem maxT fs (i + 1) h]
    have hne : i ≠ numThreads maxT fs - 1 := by
      rw [hlen] at h
      omega
    simp only [hne, if_false]
    ring
  · intro h
    rw [create_chunk_threads_getElem maxT fs 0 h]
    simp
  · intro h
    rw [create_chunk_threads_getElem maxT fs _ (by omega)]
    rw [hlen]
    simp
  · subst hc
    exact create_chunk_threads_flatten maxT c hm
  · exact create_chunk_threads_sum maxT fs hm

theorem C6_witness :
    ((create_chunk_threads 4 5).map
      (fun spec => (([10, 11, 12, 13, 14] : List Nat).drop spec.startByte).take
        (spec.endByte - spec.startByte))).flatten = [10, 11, 12, 13, 14] ∧
    ((create_chunk_threads 4 5).map
      (fun spec => spec.endByte - spec.startByte)).sum = 5 ∧
    (create_chunk_threads 4 5).length = numThreads 4 5 := by
  have h := C6_chunk_ranges 4 5 (by decide) [10, 11, 12, 13, 14] (by decide)
  exact ⟨h.2.2.2.2.2.2.1, h.2.2.2.2.2.2.2.1, h.1⟩

/-- C7 (code bug): for any accepted multi-threaded transfer with at least one
inline small file, the receiver's next read after the small files does NOT
yield `"TRANSFER_COMPLETE"`: the `while True` loop of `_receive_small_files`
has already consumed the marker (its first 4 bytes parse as a length prefix,
the remaining 13 fail JSON decoding, and the loop breaks with the stream
empty).  `conn.recv(1024)` then returns empty and the finalization block
(grace wait, byte/file counters, history record) is skipped.  The file
contents themselves are received intact. -/
theorem C7_completion_marker_lost (bufSize : Nat) (hb : 0 < bufSize)
    (files : List FileInfo) (hne : files ≠ [])
    (hwf : ∀ f ∈ files, wfSmallFile f) :
    (handle_control_after_ready bufSize files.length
      (controlStreamAfterReady bufSize files)).receivedSmall =
      files.map (fun f => { name := f.name, size := f.size, content := f.content }) ∧
    (handle_control_after_ready bufSize files.length
      (controlStreamAfterReady bufSize files)).completionSignal = [] ∧
    (handle_control_after_ready bufSize files.length
      (controlStreamAfterReady bufSize files)).finalized = false := by
  have hcount : 0 < files.length := List.length_pos.mpr hne
  have hge := controlStream_length_ge bufSize files
  have hrt := receive_small_files_roundtrip bufSize hb files
    ((controlStreamAfterReady bufSize files).length + 1) (by omega) hwf
  simp only [handle_control_after_ready, hcount, if_true, hrt, List.take_nil]
  refine ⟨?_, ?_, ?_⟩
  · simp
  · simp
  · decide

theorem C7_witness :
    (handle_control_after_ready 4 1 (controlStreamAfterReady 4
      [{ name := [120], path := [112], size := 2, content := [42, 43] }])).receivedSmall =
      [{ name := [120], size := 2, content := [42, 43] }] ∧
    (handle_control_after_ready 4 1 (controlStreamAfterReady 4
      [{ name := [120], path := [112], size := 2, content := [42, 43] }])).completionSignal = [] ∧
    (handle_control_after_ready 4 1 (controlStreamAfterReady 4
      [{ name := [120], path := [112], size := 2, content := [42, 43] }])).finalized = false :=
  C7_completion_marker_lost 4 (by decide)
    [{ name := [120], path := [112], size := 2, content := [42, 43] }]
    (by decide) (by decide)

/-- Sums distribute over `flatMap` when each inner sum is known. -/
theorem sum_flatMap_congr {α : Type} (l : List α) (g : α → List Nat)
    (h : α → Nat) (hg : ∀ x ∈ l, (g x).sum = h x) :
    (l.flatMap g).sum = (l.map h).sum := by
  induction l with
  | nil => rfl
  | cons a rest ih =>
    simp only [List.flatMap_cons, List.map_cons, List.sum_append, List.sum_cons]
    rw [hg a (List.mem_cons_self a rest),
      ih (fun x hx => hg x (List.mem_cons_of_mem a hx))]

/-- Splitting the file list at the threshold preserves the total size. -/
theorem filter_sizes_sum (threshold : Nat) (files : List FileInfo) :
    ((files.filter (fun f => decide (f.size ≤ threshold))).map FileInfo.size).sum +
      ((files.filter (fun f => decide (threshold < f.size))).map FileInfo.size).sum =
      (files.map FileInfo.size).sum := by
  induction files with
  | nil => rfl
  | cons f rest ih =>
    by_cases hf : f.size ≤ threshold
    · have hnl : ¬ (threshold < f.size) := by omega
      simp only [List.filter_cons]
      rw [if_pos (by simpa using hf), if_neg (by simpa using hnl)]
      simp only [List.map_cons, List.sum_cons]
      omega
    · have hnl : threshold < f.size := by omega
      simp only [List.filter_cons]
      rw [if_neg (by simpa using hf), if_pos (by simpa using hnl)]
      simp only [List.map_cons, List.sum_cons]
      omega

/-- Sender side of the progress invariant: every update of the shared `sent`
counter adds one buffer's length (a non-negative amount, taken under the
transfer's lock), so the counter value is non-decreasing over the sequence of
updates; and when all send loops complete the counter equals the transfer's
total size. -/
theorem sender_progress_monotone_total (bufSize threshold maxT : Nat)
    (hb : 0 < bufSize) (hm : 0 < maxT) (files : List FileInfo)
    (hwf : ∀ f ∈ files, f.content.length = f.size) :
    (∀ i j, i ≤ j →
      progress_value (progress_increments bufSize threshold maxT files) i ≤
        progress_value (progress_increments bufSize threshold maxT files) j) ∧
    (progress_increments bufSize threshold maxT files).sum = total_size files := by
  refine ⟨fun i j hij => progress_value_mono _ i j hij, ?_⟩
  simp only [progress_increments, List.sum_append]
  have hsmall : ((files.filter (fun f => decide (f.size ≤ threshold))).flatMap
      (fun f => (sendSmallBuffers bufSize f.content.length f.size
        f.content).map List.length)).sum =
      ((files.filter (fun f => decide (f.size ≤ threshold))).map
        FileInfo.size).sum := by
    apply sum_flatMap_congr
    intro f hf
    have hwff : f.content.length = f.size := hwf f (List.mem_of_mem_filter hf)
    rw [← List.length_flatten]
    rw [← hwff]
    rw [sendSmallBuffers_flatten bufSize hb f.content.length f.content
      (Nat.le_refl _)]
  have hlarge : ((files.filter (fun f => decide (threshold < f.size))).flatMap
      (fun f => (create_chunk_threads maxT f.size).flatMap
        (fun spec => (sendChunkBuffers bufSize (spec.endByte - spec.startByte)
          (spec.endByte - spec.startByte)
          (f.content.drop spec.startByte)).map List.length))).sum =
      ((files.filter (fun f => decide (threshold < f.size))).map
        FileInfo.size).sum := by
    apply sum_flatMap_congr
    intro f hf
    have hwff : f.content.length = f.size := hwf f (List.mem_of_mem_filter hf)
    have hinner : ∀ spec ∈ create_chunk_threads maxT f.size,
        ((sendChunkBuffers bufSize (spec.endByte - spec.startByte)
          (spec.endByte - spec.startByte)
          (f.content.drop spec.startByte)).map List.length).sum =
        spec.endByte - spec.startByte := by
      intro spec hspec
      obtain ⟨hse, hef⟩ := create_chunk_threads_bounds maxT f.size hm spec hspec
      rw [← List.length_flatten]
      rw [sendChunkBuffers_flatten bufSize hb _ _ _ (Nat.le_refl _) (by
        simp only [List.length_drop]
        omega)]
      simp only [List.length_take, List.length_drop]
      omega
    rw [sum_flatMap_congr _ _ _ hinner]
    exact create_chunk_threads_sum maxT f.size hm
  rw [hsmall, hlarge, total_size]
  exact filter_sizes_sum threshold files

theorem sender_progress_total_instance :
    (∀ i j, i ≤ j →
      progress_value (progress_increments 2 2 4
        [{ name := [97], path := [97], size := 2, content := [7, 8] },
         { name := [98], path := [98], size := 3, content := [1, 2, 3] }]) i ≤
        progress_value (progress_increments 2 2 4
        [{ name := [97], path := [97], size := 2, content := [7, 8] },
         { name := [98], path := [98], size := 3, content := [1, 2, 3] }]) j) ∧
    (progress_increments 2 2 4
      [{ name := [97], path := [97], size := 2, content := [7, 8] },
       { name := [98], path := [98], size := 3, content := [1, 2, 3] }]).sum =
      total_size
      [{ name := [97], path := [97], size := 2, content := [7, 8] },
       { name := [98], path := [98], size := 3, content := [1, 2, 3] }] :=
  sender_progress_monotone_total 2 2 4 (by decide) (by decide)
    [{ name := [97], path := [97], size := 2, content := [7, 8] },
     { name := [98], path := [98], size := 3, content := [1, 2, 3] }]
    (by decide)

/-- C9 counterexample: a responder configured with name `"N"`, port `7000`,
status idle produces an announce carrying the status — but the initiator's
collected entry stores only name, port, version and a local last-seen time;
it has no `status` field at all, so the entry does not consist of exactly
name, port and status. -/
theorem C9_counterexample :
    discovery_listener_reply "N" "7000" false 5 "discover" =
      some { name := "N", port := 7000, version := "2.0", status := "idle",
             timestamp := 5 } ∧
    (discover_hosts_collect [("10.0.0.2",
      { name := "N", port := 7000, version := "2.0", status := "idle",
        timestamp := 5 }, 6)]).lookup "10.0.0.2" =
      some [("name", JVal.s "N"), ("port", JVal.n 7000),
        ("version", JVal.s "2.0"), ("last_seen", JVal.n 6)] ∧
    ((discover_hosts_collect [("10.0.0.2",
      { name := "N", port := 7000, version := "2.0", status := "idle",
        timestamp := 5 }, 6)]).lookup "10.0.0.2").map
      (fun e => e.lookup "status") = some none := by
  refine ⟨?_, ?_, ?_⟩ <;> decide

/-- C9 (amended): a responder named `N` with digit port string `P` and idle
status replies to a probe, and the initiator's map then holds, under the
responder's source address, an entry with the fields name, port, version and
last-seen (the local receive time) — the announce's status is not stored;
last-seen wins on duplicate replies from the same ip; and a run with no
replies yields the empty map rather than an error. -/
theorem C9_discovery_roundtrip (cfgName portVal : String) (P : Nat)
    (hP : parsePortVal portVal = P) (isRecv : Bool) (t tLocal : Nat)
    (ip : String) (ann : Announce)
    (hann : discovery_listener_reply cfgName portVal isRecv t "discover" =
      some ann) :
    ann.name = cfgName ∧ ann.port = P ∧
    ann.status = (if isRecv then "receiving" else "idle") ∧
    (discover_hosts_collect [(ip, ann, tLocal)]).lookup ip =
      some [("name", JVal.s cfgName), ("port", JVal.n P),
        ("version", JVal.s "2.0"), ("last_seen", JVal.n tLocal)] ∧
    ((discover_hosts_collect [(ip, ann, tLocal)]).lookup ip).map
      (fun e => e.lookup "status") = some none ∧
    (∀ (a1 a2 : Announce) (t1 t2 : Nat),
      (discover_hosts_collect [(ip, a1, t1), (ip, a2, t2)]).lookup ip =
        some (discoveredEntry a2 t2)) ∧
    discover_hosts_collect [] = [] := by
  simp only [discovery_listener_reply, if_pos rfl, if_true,
    Option.some.injEq] at hann
  subst hann
  simp only [hP]
  refine ⟨trivial, trivial, trivial, ?_, ?_, ?_, rfl⟩
  · simp [discover_hosts_collect, dictSet, discoveredEntry, List.lookup]
  · simp [discover_hosts_collect, dictSet, discoveredEntry, List.lookup]
  · intro a1 a2 t1 t2
    simp [discover_hosts_collect, dictSet, discoveredEntry, List.lookup]

theorem C9_roundtrip_witness :
    ({ name := "N", port := 7000, version := "2.0", status := "idle",
       timestamp := 5 } : Announce).name = "N" ∧
    ({ name := "N", port := 7000, version := "2.0", status := "idle",
       timestamp := 5 } : Announce).port = 7000 ∧
    ({ name := "N", port := 7000, version := "2.0", status := "idle",
       timestamp := 5 } : Announce).status = (if false then "receiving" else "idle") ∧
    (discover_hosts_collect [("10.0.0.9",
      { name := "N", port := 7000, version := "2.0", status := "idle",
        timestamp := 5 }, 6)]).lookup "10.0.0.9" =
      some [("name", JVal.s "N"), ("port", JVal.n 7000),
        ("version", JVal.s "2.0"), ("last_seen", JVal.n 6)] ∧
    ((discover_hosts_collect [("10.0.0.9",
      { name := "N", port := 7000, version := "2.0", status := "idle",
        timestamp := 5 }, 6)]).lookup "10.0.0.9").map
      (fun e => e.lookup "status") = some none ∧
    (∀ (a1 a2 : Announce) (t1 t2 : Nat),
      (discover_hosts_collect [("10.0.0.9", a1, t1), ("10.0.0.9", a2, t2)]).lookup
        "10.0.0.9" = some (discoveredEntry a2 t2)) ∧
    discover_hosts_collect [] = [] :=
  C9_discovery_roundtrip "N" "7000" 7000 (by decide) false 5 6 "10.0.0.9"
    { name := "N", port := 7000, version := "2.0", status := "idle",
      timestamp := 5 } (by decide)

/-- C10 (confirmed): the overwrite policy applies only to inline small files.
When overwriting is disabled and the destination exists, `_get_unique_filename`
returns `base_k.ext` for the least `k ≥ 1` whose candidate does not exist;
a reassembled chunked file is always written to
`os.path.join(save_dir, file_name)` directly, with no uniquification and no
dependence on the overwrite setting. -/
theorem C10_overwrite_policy (ex : String → Bool) (base ext : String)
    (fuel : Nat) (hexists : ex (base ++ ext) = true)
    (hfree : ∃ j, j < fuel ∧ ex (base ++ "_" ++ Nat.repr (1 + j) ++ ext) = false)
    (saveDir fileName : String) (chunks : List (Nat × List Nat))
    (hch : chunks ≠ []) :
    (∃ k, get_unique_filename false ex fuel base ext =
        base ++ "_" ++ Nat.repr k ++ ext ∧ 1 ≤ k ∧
        ex (base ++ "_" ++ Nat.repr k ++ ext) = false ∧
        ∀ j, 1 ≤ j → j < k → ex (base ++ "_" ++ Nat.repr j ++ ext) = true) ∧
    (check_and_reassemble_file saveDir fileName chunks).outputPath =
      saveDir ++ "/" ++ fileName := by
  constructor
  · have hspec := get_unique_filename_loop_spec ex base ext fuel 1 hfree
    obtain ⟨h1, h2, h3⟩ := hspec
    refine ⟨get_unique_filename_loop ex base ext fuel 1, ?_, h2, h1, h3⟩
    simp [get_unique_filename, hexists]
  · simp [check_and_reassemble_file, hch]

theorem C10_witness :
    (∃ k, get_unique_filename false
        (fun s => decide (s = "dl/f.txt" ∨ s = "dl/f_1.txt")) 5 "dl/f" ".txt" =
        "dl/f" ++ "_" ++ Nat.repr k ++ ".txt" ∧ 1 ≤ k ∧
        (fun s => decide (s = "dl/f.txt" ∨ s = "dl/f_1.txt"))
          ("dl/f" ++ "_" ++ Nat.repr k ++ ".txt") = false ∧
        ∀ j, 1 ≤ j → j < k →
          (fun s => decide (s = "dl/f.txt" ∨ s = "dl/f_1.txt"))
            ("dl/f" ++ "_" ++ Nat.repr j ++ ".txt") = true) ∧
    (check_and_reassemble_file "dl" "big.bin" [(0, [1])]).outputPath =
      "dl" ++ "/" ++ "big.bin" :=
  C10_overwrite_policy (fun s => decide (s = "dl/f.txt" ∨ s = "dl/f_1.txt"))
    "dl/f" ".txt" 5 (by decide) ⟨1, by decide⟩ "dl" "big.bin" [(0, [1])]
    (by decide)

/-- C8 (code bug): the moved-bytes counter is only ever incremented by
non-negative amounts, but the success-equality half of the claim fails on the
receiver.  For an accepted multi-threaded transfer whose files are all above
the split threshold (`small_files == 0`), the receiver skips
`_receive_small_files`, reads the completion marker intact and runs the
success finalization (transfer_manager.py lines 420–437) — yet its
`received` counter is still 0: the chunk listeners accept no connection (the
`active_transfers` guard bug), so no receive loop ever increments the
counter, and at the success terminal state it does not equal the transfer's
total size. -/
theorem C8_receiver_counter_misses_total (evs : Nat → List RegistryEvent)
    (t : Nat) (ip : String) (bufSize totalSize : Nat) (htot : 0 < totalSize)
    (conns : List (ChunkMeta × List Nat)) :
    (handle_control_after_ready bufSize 0 markerBytes).finalized = true ∧
    (chunk_listener_loop (fun j => registry (evs j)) (TransferId.recv t ip) 0
      conns).map (receive_file_chunk bufSize) = [] ∧
    ((chunk_listener_loop (fun j => registry (evs j)) (TransferId.recv t ip) 0
      conns).map (fun c => ((receive_file_chunk bufSize c).2).length)).sum = 0 ∧
    ((chunk_listener_loop (fun j => registry (evs j)) (TransferId.recv t ip) 0
      conns).map (fun c => ((receive_file_chunk bufSize c).2).length)).sum ≠
      totalSize := by
  rw [chunk_listener_loop_recv_eq_nil]
  refine ⟨?_, rfl, rfl, by simp; omega⟩
  have hsig : markerBytes.take 1024 = markerBytes := by decide
  simp [handle_control_after_ready, hsig]

theorem C8_receiver_witness :
    (handle_control_after_ready 1024 0 markerBytes).finalized = true ∧
    (chunk_listener_loop (fun _ => registry (([] : List RegistryEvent)))
      (TransferId.recv 1700000000 "10.0.0.5") 0
      [({ file_name := [97], file_path := [97], chunk_id := 0, start_byte := 0,
          end_byte := 3, chunk_size := 3 }, [1, 2, 3])]).map
      (receive_file_chunk 1024) = [] ∧
    ((chunk_listener_loop (fun _ => registry (([] : List RegistryEvent)))
      (TransferId.recv 1700000000 "10.0.0.5") 0
      [({ file_name := [97], file_path := [97], chunk_id := 0, start_byte := 0,
          end_byte := 3, chunk_size := 3 }, [1, 2, 3])]).map
      (fun c => ((receive_file_chunk 1024 c).2).length)).sum = 0 ∧
    ((chunk_listener_loop (fun _ => registry (([] : List RegistryEvent)))
      (TransferId.recv 1700000000 "10.0.0.5") 0
      [({ file_name := [97], file_path := [97], chunk_id := 0, start_byte := 0,
          end_byte := 3, chunk_size := 3 }, [1, 2, 3])]).map
      (fun c => ((receive_file_chunk 1024 c).2).length)).sum ≠ 262144000 :=
  C8_receiver_counter_misses_total (fun _ => []) 1700000000 "10.0.0.5" 1024
    262144000 (by decide)
    [({ file_name := [97], file_path := [97], chunk_id := 0, start_byte := 0,
        end_byte := 3, chunk_size := 3 }, [1, 2, 3])]

end NetShare
